import Mathlib

/-!
Verification of the bark_lang front end: a byte-driven finite-state lexer
(src/lexer.rs) and a recursive-descent expression parser (src/parser.rs),
shallowly embedded in Lean. Bytes are modelled as natural numbers (their
ASCII codes), Rust vectors as Lean lists, and the mutable `Lexer` / `Parser`
structs as records threaded through the transition functions.
-/

namespace BarkLang

/-- Lexer FSM states (`enum State` in src/lexer.rs). -/
inductive State where
  | Start
  | Identifier
  | Zero
  | Dot
  | Integer
  | Hexadecimal
  | Octal
  | Binary
  | Fractional
  | Exponent
  | Equals
  | Minus
deriving DecidableEq, Repr

/-- `enum IntegerRepresentation`: digit values (not characters) per radix. -/
inductive IntegerRepresentation where
  | Decimal (digits : List Nat)
  | Hexadecimal (digits : List Nat)
  | Octal (digits : List Nat)
  | Binary (digits : List Nat)
deriving DecidableEq, Repr

/-- `enum FloatRepresentation`. -/
inductive FloatRepresentation where
  | Decimal (integer fractional : List Nat)
  | Scientific (integer fractional exponent : List Nat)
deriving DecidableEq, Repr

/-- `enum Token`. -/
inductive Token where
  | Plus
  | Minus
  | Asterisk
  | ForwardSlash
  | Dot
  | Comma
  | Colon
  | Semicolon
  | Assign
  | Equals
  | RightArrow
  | LeftParenthesis
  | RightParenthesis
  | LeftBracket
  | RightBracket
  | LeftBrace
  | RightBrace
  | False
  | True
  | And
  | Or
  | Not
  | Xor
  | Else
  | Function
  | If
  | Let
  | Return
  | Lambda
  | Identifier (name : List Nat)
  | Integer (rep : IntegerRepresentation)
  | Float (rep : FloatRepresentation)
  | EOF
deriving DecidableEq, Repr

/-- `struct Lexer`: current state plus the transient scratch buffers and the
tokens emitted so far. -/
structure Lexer where
  state : State
  integer : List Nat
  fractional : List Nat
  exponent : List Nat
  identifier : List Nat
  tokens : List Token
deriving DecidableEq, Repr

/-- `enum Action`: `Continue` consumes the byte, `Again` reconsumes it. -/
inductive Action where
  | Continue
  | Again
deriving DecidableEq, Repr

/-- `enum InternalError` (errors raised inside the FSM, without an offset). -/
inductive InternalError where
  | UnexpectedByte
  | InvalidNumberDigit
  | LeadingZeroWithoutBase
  | InvalidHexadecimalDigit
  | InvalidOctalDigit
  | InvalidBinaryDigit
  | MissingDigitsAfterBasePrefix
deriving DecidableEq, Repr

/-- `enum Error` of src/lexer.rs: each variant carries a byte offset. -/
inductive LexError where
  | UnexpectedByte (offset : Nat)
  | InvalidNumberDigit (offset : Nat)
  | LeadingZeroWithoutBase (offset : Nat)
  | InvalidHexadecimalDigit (offset : Nat)
  | InvalidOctalDigit (offset : Nat)
  | InvalidBinaryDigit (offset : Nat)
  | MissingDigitsAfterBasePrefix (offset : Nat)
  | MissingDigitsAfterExponentMark (offset : Nat)
deriving DecidableEq, Repr

/-- `Lexer::new`. -/
def Lexer.new : Lexer :=
  { state := State.Start, integer := [], fractional := [], exponent := [],
    identifier := [], tokens := [] }

/-- `self.tokens.push(token)`. -/
def push_token (l : Lexer) (t : Token) : Lexer :=
  { l with tokens := l.tokens ++ [t] }

/-- `Lexer::run_fsm_start`.  ASCII codes: space 32, tab 9, CR 13, LF 10,
A-Z 65-90, a-z 97-122, underscore 95, 0 48, 1-9 49-57, + 43, - 45, * 42,
/ 47, . 46, comma 44, colon 58, semicolon 59, = 61, ( 40, ) 41, [ 91,
] 93, left brace 123, right brace 125. -/
def run_fsm_start (l : Lexer) (byte : Nat) : Except InternalError (Action × Lexer) :=
  if byte = 32 ∨ byte = 9 ∨ byte = 13 ∨ byte = 10 then
    .ok (Action.Continue, l)
  else if (65 ≤ byte ∧ byte ≤ 90) ∨ (97 ≤ byte ∧ byte ≤ 122) ∨ byte = 95 then
    .ok (Action.Continue,
      { l with identifier := l.identifier ++ [byte], state := State.Identifier })
  else if byte = 48 then
    .ok (Action.Continue, { l with state := State.Zero })
  else if 49 ≤ byte ∧ byte ≤ 57 then
    .ok (Action.Continue,
      { l with integer := l.integer ++ [byte - 48], state := State.Integer })
  else if byte = 43 then
    .ok (Action.Continue, push_token l Token.Plus)
  else if byte = 45 then
    .ok (Action.Continue, { l with state := State.Minus })
  else if byte = 42 then
    .ok (Action.Continue, push_token l Token.Asterisk)
  else if byte = 47 then
    .ok (Action.Continue, push_token l Token.ForwardSlash)
  else if byte = 46 then
    .ok (Action.Continue, { l with state := State.Dot })
  else if byte = 44 then
    .ok (Action.Continue, push_token l Token.Comma)
  else if byte = 58 then
    .ok (Action.Continue, push_token l Token.Colon)
  else if byte = 59 then
    .ok (Action.Continue, push_token l Token.Semicolon)
  else if byte = 61 then
    .ok (Action.Continue, { l with state := State.Equals })
  else if byte = 40 then
    .ok (Action.Continue, push_token l Token.LeftParenthesis)
  else if byte = 41 then
    .ok (Action.Continue, push_token l Token.RightParenthesis)
  else if byte = 91 then
    .ok (Action.Continue, push_token l Token.LeftBracket)
  else if byte = 93 then
    .ok (Action.Continue, push_token l Token.RightBracket)
  else if byte = 123 then
    .ok (Action.Continue, push_token l Token.LeftBrace)
  else if byte = 125 then
    .ok (Action.Continue, push_token l Token.RightBrace)
  else
    .error InternalError.UnexpectedByte

/-- `Lexer::classify_identifier`: match the accumulated bytes against the
keyword table, otherwise emit an `Identifier` token; the scratch buffer is
cleared either way.  Keyword spellings as ASCII codes. -/
def classify_identifier (l : Lexer) : Lexer :=
  let token :=
    if l.identifier = [97, 110, 100] then Token.And                          -- and
    else if l.identifier = [101, 108, 115, 101] then Token.Else              -- else
    else if l.identifier = [102, 97, 108, 115, 101] then Token.False         -- false
    else if l.identifier = [102, 117, 110, 99, 116, 105, 111, 110] then Token.Function
    else if l.identifier = [105, 102] then Token.If                          -- if
    else if l.identifier = [108, 97, 109, 98, 100, 97] then Token.Lambda     -- lambda
    else if l.identifier = [108, 101, 116] then Token.Let                    -- let
    else if l.identifier = [110, 111, 116] then Token.Not                    -- not
    else if l.identifier = [111, 114] then Token.Or                          -- or
    else if l.identifier = [114, 101, 116, 117, 114, 110] then Token.Return  -- return
    else if l.identifier = [116, 114, 117, 101] then Token.True              -- true
    else if l.identifier = [120, 111, 114] then Token.Xor                    -- xor
    else Token.Identifier l.identifier
  { l with identifier := [], tokens := l.tokens ++ [token] }

/-- `Lexer::run_fsm_identifier`. -/
def run_fsm_identifier (l : Lexer) (byte : Nat) : Except InternalError (Action × Lexer) :=
  if (48 ≤ byte ∧ byte ≤ 57) ∨ (65 ≤ byte ∧ byte ≤ 90) ∨ (97 ≤ byte ∧ byte ≤ 122) ∨ byte = 95 then
    .ok (Action.Continue, { l with identifier := l.identifier ++ [byte] })
  else
    .ok (Action.Again, { (classify_identifier l) with state := State.Start })

/-- `Lexer::run_fsm_zero`.  `x` is 120, `o` is 111, `b` is 98. -/
def run_fsm_zero (l : Lexer) (byte : Nat) : Except InternalError (Action × Lexer) :=
  if byte = 120 then
    .ok (Action.Continue, { l with state := State.Hexadecimal })
  else if byte = 111 then
    .ok (Action.Continue, { l with state := State.Octal })
  else if byte = 98 then
    .ok (Action.Continue, { l with state := State.Binary })
  else if byte = 46 then
    .ok (Action.Continue, { l with integer := l.integer ++ [0], state := State.Fractional })
  else if 48 ≤ byte ∧ byte ≤ 57 then
    .error InternalError.LeadingZeroWithoutBase
  else if (65 ≤ byte ∧ byte ≤ 90) ∨ (97 ≤ byte ∧ byte ≤ 122) then
    .error InternalError.InvalidNumberDigit
  else
    .ok (Action.Again,
      { (push_token l (Token.Integer (IntegerRepresentation.Decimal [0]))) with
        state := State.Start })

/-- `Lexer::run_fsm_dot`. -/
def run_fsm_dot (l : Lexer) (byte : Nat) : Except InternalError (Action × Lexer) :=
  if 48 ≤ byte ∧ byte ≤ 57 then
    .ok (Action.Continue,
      { l with fractional := l.fractional ++ [byte - 48], state := State.Fractional })
  else
    .ok (Action.Again, { (push_token l Token.Dot) with state := State.Start })

/-- `Lexer::run_fsm_integer`.  `e` is 101. -/
def run_fsm_integer (l : Lexer) (byte : Nat) : Except InternalError (Action × Lexer) :=
  if 48 ≤ byte ∧ byte ≤ 57 then
    .ok (Action.Continue, { l with integer := l.integer ++ [byte - 48] })
  else if byte = 46 then
    .ok (Action.Continue, { l with state := State.Fractional })
  else if byte = 101 then
    .ok (Action.Continue, { l with state := State.Exponent })
  else
    .ok (Action.Again,
      { l with
        integer := [],
        tokens := l.tokens ++ [Token.Integer (IntegerRepresentation.Decimal l.integer)],
        state := State.Start })

/-- `Lexer::run_fsm_hexadecimal`.  A-F are 65-70, a-f are 97-102. -/
def run_fsm_hexadecimal (l : Lexer) (byte : Nat) : Except InternalError (Action × Lexer) :=
  if 48 ≤ byte ∧ byte ≤ 57 then
    .ok (Action.Continue, { l with integer := l.integer ++ [byte - 48] })
  else if 65 ≤ byte ∧ byte ≤ 70 then
    .ok (Action.Continue, { l with integer := l.integer ++ [10 + (byte - 65)] })
  else if 97 ≤ byte ∧ byte ≤ 102 then
    .ok (Action.Continue, { l with integer := l.integer ++ [10 + (byte - 97)] })
  else if (71 ≤ byte ∧ byte ≤ 90) ∨ (103 ≤ byte ∧ byte ≤ 122) then
    .error InternalError.InvalidHexadecimalDigit
  else if l.integer.length = 0 then
    .error InternalError.MissingDigitsAfterBasePrefix
  else
    .ok (Action.Again,
      { l with
        integer := [],
        tokens := l.tokens ++ [Token.Integer (IntegerRepresentation.Hexadecimal l.integer)],
        state := State.Start })

/-- `Lexer::run_fsm_octal`.  0-7 are 48-55. -/
def run_fsm_octal (l : Lexer) (byte : Nat) : Except InternalError (Action × Lexer) :=
  if 48 ≤ byte ∧ byte ≤ 55 then
    .ok (Action.Continue, { l with integer := l.integer ++ [byte - 48] })
  else if (56 ≤ byte ∧ byte ≤ 57) ∨ (65 ≤ byte ∧ byte ≤ 90) ∨ (97 ≤ byte ∧ byte ≤ 122) then
    .error InternalError.InvalidOctalDigit
  else if l.integer.length = 0 then
    .error InternalError.MissingDigitsAfterBasePrefix
  else
    .ok (Action.Again,
      { l with
        integer := [],
        tokens := l.tokens ++ [Token.Integer (IntegerRepresentation.Octal l.integer)],
        state := State.Start })

/-- `Lexer::run_fsm_binary`.  0-1 are 48-49. -/
def run_fsm_binary (l : Lexer) (byte : Nat) : Except InternalError (Action × Lexer) :=
  if 48 ≤ byte ∧ byte ≤ 49 then
    .ok (Action.Continue, { l with integer := l.integer ++ [byte - 48] })
  else if (50 ≤ byte ∧ byte ≤ 57) ∨ (65 ≤ byte ∧ byte ≤ 90) ∨ (97 ≤ byte ∧ byte ≤ 122) then
    .error InternalError.InvalidBinaryDigit
  else if l.integer.length = 0 then
    .error InternalError.MissingDigitsAfterBasePrefix
  else
    .ok (Action.Again,
      { l with
        integer := [],
        tokens := l.tokens ++ [Token.Integer (IntegerRepresentation.Binary l.integer)],
        state := State.Start })

/-- `Lexer::run_fsm_fractional`. -/
def run_fsm_fractional (l : Lexer) (byte : Nat) : Except InternalError (Action × Lexer) :=
  if 48 ≤ byte ∧ byte ≤ 57 then
    .ok (Action.Continue, { l with fractional := l.fractional ++ [byte - 48] })
  else if byte = 101 then
    .ok (Action.Continue, { l with state := State.Exponent })
  else
    .ok (Action.Again,
      { l with
        integer := [], fractional := [],
        tokens := l.tokens ++
          [Token.Float (FloatRepresentation.Decimal l.integer l.fractional)],
        state := State.Start })

/-- `Lexer::run_fsm_exponent`. -/
def run_fsm_exponent (l : Lexer) (byte : Nat) : Except InternalError (Action × Lexer) :=
  if 48 ≤ byte ∧ byte ≤ 57 then
    .ok (Action.Continue, { l with exponent := l.exponent ++ [byte - 48] })
  else
    .ok (Action.Again,
      { l with
        integer := [], fractional := [], exponent := [],
        tokens := l.tokens ++
          [Token.Float (FloatRepresentation.Scientific l.integer l.fractional l.exponent)],
        state := State.Start })

/-- `Lexer::run_fsm_equals`.  Note: on a second `=` the source pushes
`Equals` and continues but does not reset the state to `Start`. -/
def run_fsm_equals (l : Lexer) (byte : Nat) : Except InternalError (Action × Lexer) :=
  if byte = 61 then
    .ok (Action.Continue, push_token l Token.Equals)
  else
    .ok (Action.Again, { (push_token l Token.Assign) with state := State.Start })

/-- `Lexer::run_fsm_minus`.  `>` is 62.  Note: on `>` the source pushes
`RightArrow` and continues but does not reset the state to `Start`. -/
def run_fsm_minus (l : Lexer) (byte : Nat) : Except InternalError (Action × Lexer) :=
  if byte = 62 then
    .ok (Action.Continue, push_token l Token.RightArrow)
  else
    .ok (Action.Again, { (push_token l Token.Minus) with state := State.Start })

/-- `Lexer::run_fsm`: dispatch on the current state. -/
def run_fsm (l : Lexer) (byte : Nat) : Except InternalError (Action × Lexer) :=
  match l.state with
  | State.Start => run_fsm_start l byte
  | State.Identifier => run_fsm_identifier l byte
  | State.Zero => run_fsm_zero l byte
  | State.Dot => run_fsm_dot l byte
  | State.Integer => run_fsm_integer l byte
  | State.Hexadecimal => run_fsm_hexadecimal l byte
  | State.Octal => run_fsm_octal l byte
  | State.Binary => run_fsm_binary l byte
  | State.Fractional => run_fsm_fractional l byte
  | State.Exponent => run_fsm_exponent l byte
  | State.Equals => run_fsm_equals l byte
  | State.Minus => run_fsm_minus l byte

/-- `Lexer::feed_byte` is a loop that reruns the FSM while it answers
`Again`; here the loop is given explicit fuel (`none` means the fuel ran
out, which is proved impossible with fuel 2). -/
def feed_byte_fuel : Nat → Lexer → Nat → Option (Except InternalError Lexer)
  | 0, _, _ => none
  | fuel + 1, l, byte =>
    match run_fsm l byte with
    | Except.error e => some (Except.error e)
    | Except.ok (Action.Continue, l1) => some (Except.ok l1)
    | Except.ok (Action.Again, l1) => feed_byte_fuel fuel l1 byte

/-- `Lexer::feed_byte`: fuel 2 suffices because an `Again` always lands in
`Start` and `Start` never answers `Again`. -/
def feed_byte (l : Lexer) (byte : Nat) : Option (Except InternalError Lexer) :=
  feed_byte_fuel 2 l byte

/-- Attach the current byte offset to an internal error
(the match in `Lexer::feed_script`). -/
def to_lex_error (e : InternalError) (i : Nat) : LexError :=
  match e with
  | InternalError.UnexpectedByte => LexError.UnexpectedByte i
  | InternalError.InvalidNumberDigit => LexError.InvalidNumberDigit i
  | InternalError.LeadingZeroWithoutBase => LexError.LeadingZeroWithoutBase i
  | InternalError.InvalidHexadecimalDigit => LexError.InvalidHexadecimalDigit i
  | InternalError.InvalidOctalDigit => LexError.InvalidOctalDigit i
  | InternalError.InvalidBinaryDigit => LexError.InvalidBinaryDigit i
  | InternalError.MissingDigitsAfterBasePrefix => LexError.MissingDigitsAfterBasePrefix i

/-- `Lexer::feed_script`, recursing over the remaining bytes while keeping
the index `i` of the current byte for error offsets.  The `none` branch is
unreachable (feed_byte always returns `some`, see the C10 theorem). -/
def feed_script_aux : Lexer → List Nat → Nat → Except LexError Lexer
  | l, [], _ => .ok l
  | l, byte :: rest, i =>
    match feed_byte l byte with
    | some (Except.error e) => .error (to_lex_error e i)
    | some (Except.ok l1) => feed_script_aux l1 rest (i + 1)
    | none => .error (LexError.UnexpectedByte i)

/-- `Lexer::feed_script` starts at index 0. -/
def feed_script (l : Lexer) (script : List Nat) : Except LexError Lexer :=
  feed_script_aux l script 0

/-- `Lexer::feed_eof`: end-of-input finalization, per state. -/
def feed_eof (l : Lexer) (script : List Nat) : Except LexError Lexer :=
  let script_len := script.length
  match l.state with
  | State.Start => .ok l
  | State.Identifier => .ok (classify_identifier l)
  | State.Zero =>
    .ok (push_token l (Token.Integer (IntegerRepresentation.Decimal [0])))
  | State.Dot => .ok (push_token l Token.Dot)
  | State.Integer =>
    .ok { l with
      integer := [],
      tokens := l.tokens ++ [Token.Integer (IntegerRepresentation.Decimal l.integer)] }
  | State.Hexadecimal =>
    if l.integer.length = 0 then
      .error (LexError.MissingDigitsAfterBasePrefix script_len)
    else
      .ok { l with
      integer := [],
        tokens := l.tokens ++ [Token.Integer (IntegerRepresentation.Hexadecimal l.integer)] }
  | State.Octal =>
    if l.integer.length = 0 then
      .error (LexError.MissingDigitsAfterBasePrefix script_len)
    else
      .ok { l with
      integer := [],
        tokens := l.tokens ++ [Token.Integer (IntegerRepresentation.Octal l.integer)] }
  | State.Binary =>
    if l.integer.length = 0 then
      .error (LexError.MissingDigitsAfterBasePrefix script_len)
    else
      .ok { l with
      integer := [],
        tokens := l.tokens ++ [Token.Integer (IntegerRepresentation.Binary l.integer)] }
  | State.Fractional =>
    .ok { l with
      integer := [], fractional := [],
      tokens := l.tokens ++
        [Token.Float (FloatRepresentation.Decimal l.integer l.fractional)] }
  | State.Exponent =>
    if l.exponent.length = 0 then
      .error (LexError.MissingDigitsAfterExponentMark script_len)
    else
      .ok { l with
      integer := [], fractional := [], exponent := [],
        tokens := l.tokens ++
          [Token.Float (FloatRepresentation.Scientific l.integer l.fractional l.exponent)] }
  | State.Equals => .ok (push_token l Token.Assign)
  | State.Minus => .ok (push_token l Token.Minus)

/-- `tokenize` (src/lexer.rs, public entry point). -/
def tokenize (script : List Nat) : Except LexError (List Token) :=
  match feed_script Lexer.new script with
  | .error e => .error e
  | .ok l =>
    match feed_eof l script with
    | .error e => .error e
    | .ok l1 => .ok l1.tokens

/-- Checker for the reconsume discipline: an `Again` answer must land in
the `Start` state (other answers are unconstrained). -/
def fsm_result_state_ok : Except InternalError (Action × Lexer) → Bool
  | Except.ok (Action.Again, l1) => decide (l1.state = State.Start)
  | _ => true

/-- Checker for the `Start` state: the answer is never `Again`. -/
def fsm_result_not_again : Except InternalError (Action × Lexer) → Bool
  | Except.ok (Action.Again, _) => false
  | _ => true

/-- Every digit value stored in an integer representation is strictly below
that representation's radix. -/
def rep_ok : IntegerRepresentation → Bool
  | IntegerRepresentation.Decimal ds => ds.all (fun d => decide (d < 10))
  | IntegerRepresentation.Hexadecimal ds => ds.all (fun d => decide (d < 16))
  | IntegerRepresentation.Octal ds => ds.all (fun d => decide (d < 8))
  | IntegerRepresentation.Binary ds => ds.all (fun d => decide (d < 2))

/-- The radix invariant of a token: integer tokens carry in-range digit
values; all other tokens are unconstrained. -/
def token_radix_ok : Token → Bool
  | Token.Integer rep => rep_ok rep
  | _ => true

/-- Bound obeyed by the pending `integer` digit buffer in each state: 16 in
`Hexadecimal`, 8 in `Octal`, 2 in `Binary`, 10 in the decimal-accumulating
states, and 0 (forcing the buffer to be empty, as no digit has been pushed
yet) in all remaining states. -/
def digit_bound : State → Nat
  | State.Hexadecimal => 16
  | State.Octal => 8
  | State.Binary => 2
  | State.Integer => 10
  | State.Fractional => 10
  | State.Exponent => 10
  | _ => 0

/-- The lexer invariant: every emitted token satisfies the radix invariant,
the pending `integer` buffer is below the current state's digit bound, and
the pending `fractional` / `exponent` buffers are decimal. -/
def lexer_inv (l : Lexer) : Bool :=
  l.tokens.all token_radix_ok
    && l.integer.all (fun d => decide (d < digit_bound l.state))
    && l.fractional.all (fun d => decide (d < 10))
    && l.exponent.all (fun d => decide (d < 10))

/-- Checker lifting `lexer_inv` to an FSM step result. -/
def fsm_result_inv : Except InternalError (Action × Lexer) → Bool
  | Except.ok (_, l1) => lexer_inv l1
  | Except.error _ => true

/-- Checker lifting the token radix invariant to a finalization result. -/
def eof_result_tokens_ok : Except LexError Lexer → Bool
  | Except.ok l1 => l1.tokens.all token_radix_ok
  | Except.error _ => true

/-- `enum ASTNode` of src/parser.rs.  The Rust `UnaryOperation` /
`BinaryOperation` boxes are flattened into direct operand arguments. -/
inductive ASTNode where
  | Identifier (name : List Nat)
  | IntegerLiteral (rep : IntegerRepresentation)
  | FloatLiteral (rep : FloatRepresentation)
  | UnaryAddition (operand : ASTNode)
  | UnarySubtraction (operand : ASTNode)
  | BinaryAddition (left_operand right_operand : ASTNode)
  | BinarySubtraction (left_operand right_operand : ASTNode)
  | BinaryMultiplication (left_operand right_operand : ASTNode)
  | BinaryDivision (left_operand right_operand : ASTNode)
  | LogicalAnd (left_operand right_operand : ASTNode)
  | LogicalOr (left_operand right_operand : ASTNode)
  | LogicalNot (operand : ASTNode)
  | LogicalXor (left_operand right_operand : ASTNode)
  | Assign (left_operand right_operand : ASTNode)
deriving DecidableEq, Repr

/-- `enum Error` of src/parser.rs. -/
inductive ParseError where
  | UnexpectedToken
deriving DecidableEq, Repr

/-- `struct Parser`: the token slice and the forward cursor.  The Rust
fields `eof_token` (always `Token::EOF`) and `length` (always
`tokens.len()`) are inlined into the cursor operations. -/
structure ParserCursor where
  tokens : List Token
  offset : Nat
deriving DecidableEq, Repr

/-- `Parser::new`. -/
def ParserCursor.new (tokens : List Token) : ParserCursor :=
  { tokens := tokens, offset := 0 }

/-- `Vec::get` on a slice: `some` of the element at the index when it is in
bounds, `none` otherwise. -/
def list_get : List Token → Nat → Option Token
  | [], _ => none
  | t :: _, 0 => some t
  | _ :: ts, n + 1 => list_get ts n

/-- `Parser::peek`: `self.tokens.get(self.offset).unwrap_or(&self.eof_token)`. -/
def peek (p : ParserCursor) : Token :=
  (list_get p.tokens p.offset).getD Token.EOF

/-- `Parser::advance`. -/
def advance (p : ParserCursor) : ParserCursor :=
  if p.offset ≠ p.tokens.length then { p with offset := p.offset + 1 } else p

/-- `Parser::consume`: return the token under the cursor and step past it,
or the EOF sentinel (without moving) when the cursor is past the end. -/
def consume (p : ParserCursor) : Token × ParserCursor :=
  match list_get p.tokens p.offset with
  | some t => (t, { p with offset := p.offset + 1 })
  | none => (Token.EOF, p)

mutual

/-- `Parser::parse_expression`.  The Rust methods recurse without an
explicit bound; here every call consumes one unit of fuel, and the public
entry point supplies enough fuel for any input (see `parse`). -/
def parse_expression : Nat → ParserCursor → Except ParseError (ASTNode × ParserCursor)
  | 0, _ => .error ParseError.UnexpectedToken
  | fuel + 1, p => parse_term fuel p

/-- `Parser::parse_term`: a `factor`, then the iterative `+` / `-` loop. -/
def parse_term : Nat → ParserCursor → Except ParseError (ASTNode × ParserCursor)
  | 0, _ => .error ParseError.UnexpectedToken
  | fuel + 1, p =>
    match parse_factor fuel p with
    | .error e => .error e
    | .ok (operand, p1) => parse_term_loop fuel operand p1

/-- The `loop` inside `Parser::parse_term`. -/
def parse_term_loop : Nat → ASTNode → ParserCursor → Except ParseError (ASTNode × ParserCursor)
  | 0, _, _ => .error ParseError.UnexpectedToken
  | fuel + 1, operand, p =>
    match peek p with
    | Token.Plus =>
      match parse_factor fuel (consume p).2 with
      | .error e => .error e
      | .ok (right_operand, p1) =>
        parse_term_loop fuel (ASTNode.BinaryAddition operand right_operand) p1
    | Token.Minus =>
      match parse_factor fuel (consume p).2 with
      | .error e => .error e
      | .ok (right_operand, p1) =>
        parse_term_loop fuel (ASTNode.BinarySubtraction operand right_operand) p1
    | _ => .ok (operand, p)

/-- `Parser::parse_factor`: a `primary`, then the iterative `*` / `/` loop. -/
def parse_factor : Nat → ParserCursor → Except ParseError (ASTNode × ParserCursor)
  | 0, _ => .error ParseError.UnexpectedToken
  | fuel + 1, p =>
    match parse_primary fuel p with
    | .error e => .error e
    | .ok (operand, p1) => parse_factor_loop fuel operand p1

/-- The `loop` inside `Parser::parse_factor`. -/
def parse_factor_loop : Nat → ASTNode → ParserCursor → Except ParseError (ASTNode × ParserCursor)
  | 0, _, _ => .error ParseError.UnexpectedToken
  | fuel + 1, operand, p =>
    match peek p with
    | Token.Asterisk =>
      match parse_primary fuel (consume p).2 with
      | .error e => .error e
      | .ok (right_operand, p1) =>
        parse_factor_loop fuel (ASTNode.BinaryMultiplication operand right_operand) p1
    | Token.ForwardSlash =>
      match parse_primary fuel (consume p).2 with
      | .error e => .error e
      | .ok (right_operand, p1) =>
        parse_factor_loop fuel (ASTNode.BinaryDivision operand right_operand) p1
    | _ => .ok (operand, p)

/-- `Parser::parse_primary`. -/
def parse_primary : Nat → ParserCursor → Except ParseError (ASTNode × ParserCursor)
  | 0, _ => .error ParseError.UnexpectedToken
  | fuel + 1, p =>
    match consume p with
    | (Token.Identifier name, p1) => .ok (ASTNode.Identifier name, p1)
    | (Token.Integer rep, p1) => .ok (ASTNode.IntegerLiteral rep, p1)
    | (Token.Float rep, p1) => .ok (ASTNode.FloatLiteral rep, p1)
    | (Token.LeftParenthesis, p1) =>
      match parse_expression fuel p1 with
      | .error e => .error e
      | .ok (node, p2) =>
        match consume p2 with
        | (Token.RightParenthesis, p3) => .ok (node, p3)
        | _ => .error ParseError.UnexpectedToken
    | _ => .error ParseError.UnexpectedToken

end

/-- `Parser::parse`: the single statement form
`let` IDENTIFIER `=` expression. -/
def parse_statement (fuel : Nat) (p : ParserCursor) : Except ParseError ASTNode :=
  match consume p with
  | (Token.Let, p1) =>
    match consume p1 with
    | (Token.Identifier name, p2) =>
      match consume p2 with
      | (Token.Assign, p3) =>
        match parse_expression fuel p3 with
        | .error e => .error e
        | .ok (right_operand, _) =>
          .ok (ASTNode.Assign (ASTNode.Identifier name) right_operand)
      | _ => .error ParseError.UnexpectedToken
    | _ => .error ParseError.UnexpectedToken
  | _ => .error ParseError.UnexpectedToken

/-- `parse` (src/parser.rs, public entry point).  The fuel bounds the
recursion depth of the expression grammar: between two consumed tokens the
parser descends at most the four precedence levels
expression / term / factor / primary, so `4 * tokens.length + 8` calls are
never exhausted on any input the Rust parser terminates on. -/
def parse (tokens : List Token) : Except ParseError ASTNode :=
  parse_statement (4 * tokens.length + 8) (ParserCursor.new tokens)

/-- Claim C1, evaluated on the code.  The spec says the two-byte operators
are recognized exactly (`"=="` is the single token `Equals`, `"->"` the
single token `RightArrow`), and the one-byte inputs indeed give the single
tokens `Assign` and `Minus`.  But `run_fsm_equals` and `run_fsm_minus` push
the two-byte token with `Action::Continue` without resetting the state to
`Start`, so end-of-input finalization appends a spurious `Assign`
(resp. `Minus`): `"=="` tokenizes to `[Equals, Assign]` and `"->"` to
`[RightArrow, Minus]`. -/
theorem c1_two_byte_operator_state_bug :
    tokenize [61] = .ok [Token.Assign] ∧
    tokenize [45] = .ok [Token.Minus] ∧
    tokenize [61, 61] = .ok [Token.Equals, Token.Assign] ∧
    tokenize [45, 62] = .ok [Token.RightArrow, Token.Minus] :=
  ⟨rfl, rfl, rfl, rfl⟩

/-- Claim C3: the exponent-emptiness check is asymmetric.  Mid-stream, any
non-digit byte makes the `Exponent` state emit `Float(Scientific{..})`
without requiring a non-empty exponent (so `"3e,"` tokenizes without
error), while at end-of-input an empty exponent fails with
`MissingDigitsAfterExponentMark` at offset = buffer length (`"3e"` fails at
offset 2). -/
theorem c3_exponent_asymmetry :
    (∀ (l : Lexer) (byte : Nat), l.state = State.Exponent →
      ¬ (48 ≤ byte ∧ byte ≤ 57) →
      run_fsm l byte = .ok (Action.Again,
        { l with
          integer := [], fractional := [], exponent := [],
          tokens := l.tokens ++
            [Token.Float (FloatRepresentation.Scientific l.integer l.fractional l.exponent)],
          state := State.Start })) ∧
    tokenize [51, 101, 44] =
      .ok [Token.Float (FloatRepresentation.Scientific [3] [] []), Token.Comma] ∧
    tokenize [51, 101] = .error (LexError.MissingDigitsAfterExponentMark 2) := by
  refine ⟨?_, rfl, rfl⟩
  intro l byte hs hnd
  rcases l with ⟨st, ints, fr, ex, idf, tks⟩
  simp only at hs
  subst hs
  simp [run_fsm, run_fsm_exponent, hnd]

/-- Witness for C3: the mid-stream conjunct at a concrete lexer state
(after reading `"3e"`) and the non-digit byte 44 (a comma). -/
theorem c3_exponent_asymmetry_witness :
    run_fsm ⟨State.Exponent, [3], [], [], [], []⟩ 44 =
      .ok (Action.Again, ⟨State.Start, [], [], [], [],
        [Token.Float (FloatRepresentation.Scientific [3] [] [])]⟩) :=
  c3_exponent_asymmetry.1 ⟨State.Exponent, [3], [], [], [], []⟩ 44 rfl (by decide)

/-- Claim C4: `"0"` tokenizes to exactly `Integer(Decimal([0]))`, while
`"01"` fails with `LeadingZeroWithoutBase` at offset 1. -/
theorem c4_leading_zero :
    tokenize [48] = .ok [Token.Integer (IntegerRepresentation.Decimal [0])] ∧
    tokenize [48, 49] = .error (LexError.LeadingZeroWithoutBase 1) :=
  ⟨rfl, rfl⟩

/-- Claim C5: radix-prefixed literals produce the matching representation
with digit values in source order (`"0x64"`, `"0o77"`, `"0b10100101"`), and
a bare prefix `"0x"` fails `MissingDigitsAfterBasePrefix` at offset 2. -/
theorem c5_radix_prefixed_literals :
    tokenize [48, 120, 54, 52] =
      .ok [Token.Integer (IntegerRepresentation.Hexadecimal [6, 4])] ∧
    tokenize [48, 111, 55, 55] =
      .ok [Token.Integer (IntegerRepresentation.Octal [7, 7])] ∧
    tokenize [48, 98, 49, 48, 49, 48, 48, 49, 48, 49] =
      .ok [Token.Integer (IntegerRepresentation.Binary [1, 0, 1, 0, 0, 1, 0, 1])] ∧
    tokenize [48, 120] = .error (LexError.MissingDigitsAfterBasePrefix 2) :=
  ⟨rfl, rfl, rfl, rfl⟩

/-- Claim C7: multiplication binds tighter than addition and
parenthesization overrides it.  Tokenizing then parsing
`"let x = 1 + 2 * 3"` yields `Assign(x, Add(1, Mul(2, 3)))`, and
`"let x = (1 + 2) * 3"` yields `Assign(x, Mul(Add(1, 2), 3))`. -/
theorem c7_precedence_left_leaning :
    tokenize [108, 101, 116, 32, 120, 32, 61, 32, 49, 32, 43, 32, 50, 32, 42, 32, 51] =
      .ok [Token.Let, Token.Identifier [120], Token.Assign,
        Token.Integer (IntegerRepresentation.Decimal [1]), Token.Plus,
        Token.Integer (IntegerRepresentation.Decimal [2]), Token.Asterisk,
        Token.Integer (IntegerRepresentation.Decimal [3])] ∧
    parse [Token.Let, Token.Identifier [120], Token.Assign,
        Token.Integer (IntegerRepresentation.Decimal [1]), Token.Plus,
        Token.Integer (IntegerRepresentation.Decimal [2]), Token.Asterisk,
        Token.Integer (IntegerRepresentation.Decimal [3])] =
      .ok (ASTNode.Assign (ASTNode.Identifier [120])
        (ASTNode.BinaryAddition
          (ASTNode.IntegerLiteral (IntegerRepresentation.Decimal [1]))
          (ASTNode.BinaryMultiplication
            (ASTNode.IntegerLiteral (IntegerRepresentation.Decimal [2]))
            (ASTNode.IntegerLiteral (IntegerRepresentation.Decimal [3]))))) ∧
    tokenize [108, 101, 116, 32, 120, 32, 61, 32, 40, 49, 32, 43, 32, 50, 41, 32, 42, 32, 51] =
      .ok [Token.Let, Token.Identifier [120], Token.Assign, Token.LeftParenthesis,
        Token.Integer (IntegerRepresentation.Decimal [1]), Token.Plus,
        Token.Integer (IntegerRepresentation.Decimal [2]), Token.RightParenthesis,
        Token.Asterisk, Token.Integer (IntegerRepresentation.Decimal [3])] ∧
    parse [Token.Let, Token.Identifier [120], Token.Assign, Token.LeftParenthesis,
        Token.Integer (IntegerRepresentation.Decimal [1]), Token.Plus,
        Token.Integer (IntegerRepresentation.Decimal [2]), Token.RightParenthesis,
        Token.Asterisk, Token.Integer (IntegerRepresentation.Decimal [3])] =
      .ok (ASTNode.Assign (ASTNode.Identifier [120])
        (ASTNode.BinaryMultiplication
          (ASTNode.BinaryAddition
            (ASTNode.IntegerLiteral (IntegerRepresentation.Decimal [1]))
            (ASTNode.IntegerLiteral (IntegerRepresentation.Decimal [2])))
          (ASTNode.IntegerLiteral (IntegerRepresentation.Decimal [3])))) :=
  ⟨rfl, rfl, rfl, rfl⟩

/-- Helper: reading at or past the end of the token slice yields `none`. -/
theorem list_get_eq_none (ts : List Token) (n : Nat) (h : ts.length ≤ n) :
    list_get ts n = none := by
  induction ts generalizing n with
  | nil => rfl
  | cons t ts ih =>
    cases n with
    | zero => simp at h
    | succ n => exact ih n (by simpa using h)

/-- Claim C9: the cursor operations are total.  At or past the end of the
token slice, `peek` returns the `EOF` sentinel and `consume` returns it
without moving the cursor, and `parse` on the empty slice returns
`Err(UnexpectedToken)` rather than failing in any other way. -/
theorem c9_cursor_total :
    (∀ (tokens : List Token) (offset : Nat), tokens.length ≤ offset →
      peek ⟨tokens, offset⟩ = Token.EOF ∧
      consume ⟨tokens, offset⟩ = (Token.EOF, ⟨tokens, offset⟩)) ∧
    parse [] = .error ParseError.UnexpectedToken := by
  refine ⟨?_, rfl⟩
  intro tokens offset h
  have hnone : list_get tokens offset = none := list_get_eq_none tokens offset h
  exact ⟨by simp [peek, hnone], by simp [consume, hnone]⟩

/-- Helper: `Parser::parse` on a token sequence starting `let x =` reduces
to the expression parser at cursor offset 3, for any fuel. -/
theorem parse_statement_let_ok (fuel : Nat) (x : List Nat) (rest : List Token)
    (e : ASTNode) (p : ParserCursor)
    (h : parse_expression fuel
      ⟨Token.Let :: Token.Identifier x :: Token.Assign :: rest, 3⟩ = .ok (e, p)) :
    parse_statement fuel
      (ParserCursor.new (Token.Let :: Token.Identifier x :: Token.Assign :: rest)) =
      .ok (ASTNode.Assign (ASTNode.Identifier x) e) := by
  simp [parse_statement, ParserCursor.new, consume, list_get, h]

/-- Claim C8: the parser recognizes exactly one statement form.  A token
sequence `Let, Identifier, Assign` followed by a well-formed expression
(one the expression parser accepts at offset 3) parses to
`Assign(Identifier, expression)`; a sequence whose first token is not
`Let`, or whose identifier or `Assign` after `Let` is missing (wrong or
absent), fails with `UnexpectedToken`. -/
theorem c8_statement_grammar :
    (∀ (x : List Nat) (rest : List Token) (e : ASTNode) (p : ParserCursor),
      parse_expression
          (4 * (Token.Let :: Token.Identifier x :: Token.Assign :: rest).length + 8)
          ⟨Token.Let :: Token.Identifier x :: Token.Assign :: rest, 3⟩ = .ok (e, p) →
      parse (Token.Let :: Token.Identifier x :: Token.Assign :: rest) =
        .ok (ASTNode.Assign (ASTNode.Identifier x) e)) ∧
    parse [] = .error ParseError.UnexpectedToken ∧
    (∀ (t : Token) (rest : List Token), t ≠ Token.Let →
      parse (t :: rest) = .error ParseError.UnexpectedToken) ∧
    parse [Token.Let] = .error ParseError.UnexpectedToken ∧
    (∀ (t : Token) (rest : List Token), (∀ n, t ≠ Token.Identifier n) →
      parse (Token.Let :: t :: rest) = .error ParseError.UnexpectedToken) ∧
    (∀ (x : List Nat), parse [Token.Let, Token.Identifier x] =
      .error ParseError.UnexpectedToken) ∧
    (∀ (x : List Nat) (t : Token) (rest : List Token), t ≠ Token.Assign →
      parse (Token.Let :: Token.Identifier x :: t :: rest) =
        .error ParseError.UnexpectedToken) := by
  refine ⟨?_, rfl, ?_, rfl, ?_, fun x => rfl, ?_⟩
  · intro x rest e p h
    exact parse_statement_let_ok _ x rest e p h
  · intro t rest ht
    cases t <;> first | rfl | exact absurd rfl ht
  · intro t rest ht
    cases t
    case Identifier n => exact absurd rfl (ht n)
    all_goals rfl
  · intro x t rest ht
    cases t <;> first | rfl | exact absurd rfl ht

/-- Witness for C8: the positive branch on the concrete statement
`let x = 1`, and the negative branch on a sequence led by `Plus`. -/
theorem c8_statement_grammar_witness :
    parse [Token.Let, Token.Identifier [120], Token.Assign,
        Token.Integer (IntegerRepresentation.Decimal [1])] =
      .ok (ASTNode.Assign (ASTNode.Identifier [120])
        (ASTNode.IntegerLiteral (IntegerRepresentation.Decimal [1]))) ∧
    parse [Token.Plus] = .error ParseError.UnexpectedToken :=
  ⟨c8_statement_grammar.1 [120] [Token.Integer (IntegerRepresentation.Decimal [1])]
      (ASTNode.IntegerLiteral (IntegerRepresentation.Decimal [1]))
      ⟨[Token.Let, Token.Identifier [120], Token.Assign,
        Token.Integer (IntegerRepresentation.Decimal [1])], 4⟩ rfl,
    c8_statement_grammar.2.2.1 Token.Plus [] (by simp)⟩

/-- Witness for C9: the cursor operations one past the end of a singleton
slice. -/
theorem c9_cursor_total_witness :
    peek ⟨[Token.Plus], 1⟩ = Token.EOF ∧
    consume ⟨[Token.Plus], 1⟩ = (Token.EOF, ⟨[Token.Plus], 1⟩) :=
  c9_cursor_total.1 [Token.Plus] 1 (by decide)

/-- Helper: the checkers pass through an `if` whose two branches pass. -/
theorem ite_state_ok {c : Prop} [Decidable c]
    {x y : Except InternalError (Action × Lexer)}
    (hx : fsm_result_state_ok x = true) (hy : fsm_result_state_ok y = true) :
    fsm_result_state_ok (if c then x else y) = true := by
  by_cases h : c
  · rwa [if_pos h]
  · rwa [if_neg h]

/-- Helper: `fsm_result_not_again` passes through an `if` likewise. -/
theorem ite_not_again {c : Prop} [Decidable c]
    {x y : Except InternalError (Action × Lexer)}
    (hx : fsm_result_not_again x = true) (hy : fsm_result_not_again y = true) :
    fsm_result_not_again (if c then x else y) = true := by
  by_cases h : c
  · rwa [if_pos h]
  · rwa [if_neg h]

/-- Helper: each state function obeys the reconsume discipline. -/
theorem run_fsm_start_state_ok (l : Lexer) (byte : Nat) :
    fsm_result_state_ok (run_fsm_start l byte) = true := by
  unfold run_fsm_start
  repeat' first | rfl | apply ite_state_ok

/-- Helper: the `Identifier` state obeys the reconsume discipline. -/
theorem run_fsm_identifier_state_ok (l : Lexer) (byte : Nat) :
    fsm_result_state_ok (run_fsm_identifier l byte) = true := by
  unfold run_fsm_identifier
  repeat' first | rfl | apply ite_state_ok

/-- Helper: the `Zero` state obeys the reconsume discipline. -/
theorem run_fsm_zero_state_ok (l : Lexer) (byte : Nat) :
    fsm_result_state_ok (run_fsm_zero l byte) = true := by
  unfold run_fsm_zero
  repeat' first | rfl | apply ite_state_ok

/-- Helper: the `Dot` state obeys the reconsume discipline. -/
theorem run_fsm_dot_state_ok (l : Lexer) (byte : Nat) :
    fsm_result_state_ok (run_fsm_dot l byte) = true := by
  unfold run_fsm_dot
  repeat' first | rfl | apply ite_state_ok

/-- Helper: the `Integer` state obeys the reconsume discipline. -/
theorem run_fsm_integer_state_ok (l : Lexer) (byte : Nat) :
    fsm_result_state_ok (run_fsm_integer l byte) = true := by
  unfold run_fsm_integer
  repeat' first | rfl | apply ite_state_ok

/-- Helper: the `Hexadecimal` state obeys the reconsume discipline. -/
theorem run_fsm_hexadecimal_state_ok (l : Lexer) (byte : Nat) :
    fsm_result_state_ok (run_fsm_hexadecimal l byte) = true := by
  unfold run_fsm_hexadecimal
  repeat' first | rfl | apply ite_state_ok

/-- Helper: the `Octal` state obeys the reconsume discipline. -/
theorem run_fsm_octal_state_ok (l : Lexer) (byte : Nat) :
    fsm_result_state_ok (run_fsm_octal l byte) = true := by
  unfold run_fsm_octal
  repeat' first | rfl | apply ite_state_ok

/-- Helper: the `Binary` state obeys the reconsume discipline. -/
theorem run_fsm_binary_state_ok (l : Lexer) (byte : Nat) :
    fsm_result_state_ok (run_fsm_binary l byte) = true := by
  unfold run_fsm_binary
  repeat' first | rfl | apply ite_state_ok

/-- Helper: the `Fractional` state obeys the reconsume discipline. -/
theorem run_fsm_fractional_state_ok (l : Lexer) (byte : Nat) :
    fsm_result_state_ok (run_fsm_fractional l byte) = true := by
  unfold run_fsm_fractional
  repeat' first | rfl | apply ite_state_ok

/-- Helper: the `Exponent` state obeys the reconsume discipline. -/
theorem run_fsm_exponent_state_ok (l : Lexer) (byte : Nat) :
    fsm_result_state_ok (run_fsm_exponent l byte) = true := by
  unfold run_fsm_exponent
  repeat' first | rfl | apply ite_state_ok

/-- Helper: the `Equals` state obeys the reconsume discipline. -/
theorem run_fsm_equals_state_ok (l : Lexer) (byte : Nat) :
    fsm_result_state_ok (run_fsm_equals l byte) = true := by
  unfold run_fsm_equals
  repeat' first | rfl | apply ite_state_ok

/-- Helper: the `Minus` state obeys the reconsume discipline. -/
theorem run_fsm_minus_state_ok (l : Lexer) (byte : Nat) :
    fsm_result_state_ok (run_fsm_minus l byte) = true := by
  unfold run_fsm_minus
  repeat' first | rfl | apply ite_state_ok

/-- Helper: the whole FSM obeys the reconsume discipline. -/
theorem run_fsm_state_ok (l : Lexer) (byte : Nat) :
    fsm_result_state_ok (run_fsm l byte) = true := by
  rcases l with ⟨st, ints, fr, ex, idf, tks⟩
  cases st
  case Start => exact run_fsm_start_state_ok ⟨State.Start, ints, fr, ex, idf, tks⟩ byte
  case Identifier =>
    exact run_fsm_identifier_state_ok ⟨State.Identifier, ints, fr, ex, idf, tks⟩ byte
  case Zero => exact run_fsm_zero_state_ok ⟨State.Zero, ints, fr, ex, idf, tks⟩ byte
  case Dot => exact run_fsm_dot_state_ok ⟨State.Dot, ints, fr, ex, idf, tks⟩ byte
  case Integer => exact run_fsm_integer_state_ok ⟨State.Integer, ints, fr, ex, idf, tks⟩ byte
  case Hexadecimal =>
    exact run_fsm_hexadecimal_state_ok ⟨State.Hexadecimal, ints, fr, ex, idf, tks⟩ byte
  case Octal => exact run_fsm_octal_state_ok ⟨State.Octal, ints, fr, ex, idf, tks⟩ byte
  case Binary => exact run_fsm_binary_state_ok ⟨State.Binary, ints, fr, ex, idf, tks⟩ byte
  case Fractional =>
    exact run_fsm_fractional_state_ok ⟨State.Fractional, ints, fr, ex, idf, tks⟩ byte
  case Exponent =>
    exact run_fsm_exponent_state_ok ⟨State.Exponent, ints, fr, ex, idf, tks⟩ byte
  case Equals => exact run_fsm_equals_state_ok ⟨State.Equals, ints, fr, ex, idf, tks⟩ byte
  case Minus => exact run_fsm_minus_state_ok ⟨State.Minus, ints, fr, ex, idf, tks⟩ byte

/-- Helper: whenever the FSM answers `Again`, the resulting state is
`Start`. -/
theorem run_fsm_again_start (l : Lexer) (byte : Nat) (l' : Lexer)
    (h : run_fsm l byte = .ok (Action.Again, l')) : l'.state = State.Start := by
  have hres := run_fsm_state_ok l byte
  rw [h] at hres
  simpa [fsm_result_state_ok] using hres

/-- Helper: from the `Start` state the FSM never answers `Again`. -/
theorem run_fsm_start_continue (l : Lexer) (byte : Nat) (a : Action) (l' : Lexer)
    (hs : l.state = State.Start) (h : run_fsm l byte = .ok (a, l')) :
    a = Action.Continue := by
  have hna : fsm_result_not_again (run_fsm_start l byte) = true := by
    unfold run_fsm_start
    repeat' first | rfl | apply ite_not_again
  have hdisp : run_fsm l byte = run_fsm_start l byte := by
    rcases l with ⟨st, ints, fr, ex, idf, tks⟩
    simp only at hs
    subst hs
    rfl
  rw [← hdisp, h] at hna
  cases a
  · rfl
  · simp [fsm_result_not_again] at hna

/-- Helper: two iterations of the reconsume loop always suffice. -/
theorem feed_byte_fuel_two_some (l : Lexer) (byte : Nat) :
    feed_byte_fuel 2 l byte ≠ none := by
  simp only [feed_byte_fuel]
  cases h1 : run_fsm l byte with
  | error e => simp
  | ok r =>
    rcases r with ⟨a, l1⟩
    cases a with
    | Continue => simp
    | Again =>
      have hs : l1.state = State.Start := run_fsm_again_start l byte l1 h1
      simp only
      cases h2 : run_fsm l1 byte with
      | error e => simp
      | ok r2 =>
        rcases r2 with ⟨a2, l2⟩
        have := run_fsm_start_continue l1 byte a2 l2 hs h2
        subst this
        simp

/-- Claim C10: `tokenize` terminates because the reconsume loop in
`feed_byte` runs at most twice on every byte: an `Again` always returns the
machine to the `Start` state, the `Start` state never produces `Again`, so
fuel 2 never runs out and any extra fuel changes nothing. -/
theorem c10_reconsume_loop_bounded :
    (∀ (l : Lexer) (byte : Nat) (l' : Lexer),
      run_fsm l byte = .ok (Action.Again, l') → l'.state = State.Start) ∧
    (∀ (l : Lexer) (byte : Nat) (a : Action) (l' : Lexer),
      l.state = State.Start → run_fsm l byte = .ok (a, l') → a = Action.Continue) ∧
    (∀ (l : Lexer) (byte : Nat), feed_byte l byte ≠ none) ∧
    (∀ (fuel : Nat) (l : Lexer) (byte : Nat),
      feed_byte_fuel (fuel + 2) l byte = feed_byte_fuel 2 l byte) := by
  refine ⟨run_fsm_again_start, run_fsm_start_continue, feed_byte_fuel_two_some, ?_⟩
  intro fuel l byte
  simp only [feed_byte_fuel]
  cases h1 : run_fsm l byte with
  | error e => rfl
  | ok r =>
    rcases r with ⟨a, l1⟩
    cases a with
    | Continue => rfl
    | Again =>
      have hs : l1.state = State.Start := run_fsm_again_start l byte l1 h1
      simp only [feed_byte_fuel]
      cases h2 : run_fsm l1 byte with
      | error e => rfl
      | ok r2 =>
        rcases r2 with ⟨a2, l2⟩
        have := run_fsm_start_continue l1 byte a2 l2 hs h2
        subst this
        rfl

/-- Witness for C10: the `Again` conjunct at the lexer state reached after
reading `"="`, fed the byte 32 (a space); the loop bound at fuel 5. -/
theorem c10_reconsume_loop_bounded_witness :
    (⟨State.Start, [], [], [], [], [Token.Assign]⟩ : Lexer).state = State.Start ∧
    feed_byte_fuel 5 ⟨State.Equals, [], [], [], [], []⟩ 32 =
      feed_byte_fuel 2 ⟨State.Equals, [], [], [], [], []⟩ 32 :=
  ⟨c10_reconsume_loop_bounded.1 ⟨State.Equals, [], [], [], [], []⟩ 32
      ⟨State.Start, [], [], [], [], [Token.Assign]⟩ rfl,
    c10_reconsume_loop_bounded.2.2.2 3 ⟨State.Equals, [], [], [], [], []⟩ 32⟩

/-- Helper: formalization of the C2 invariant exactly as claimed: every
`Scientific` float token in a successful tokenization has a non-empty
exponent. -/
def scientific_exponent_nonempty_claim : Prop :=
  ∀ (script : List Nat) (ts : List Token), tokenize script = .ok ts →
    ∀ t ∈ ts, ∀ i f ex,
      t = Token.Float (FloatRepresentation.Scientific i f ex) → ex ≠ []

/-- Counterexample to claim C2: the input `"3e,"` tokenizes successfully to
`[Float(Scientific{[3],[],[]}), Comma]`, whose `Scientific` token has an
empty exponent, so the claimed invariant is false. -/
theorem c2_scientific_empty_exponent_counterexample :
    ¬ scientific_exponent_nonempty_claim := by
  intro h
  exact h [51, 101, 44]
    [Token.Float (FloatRepresentation.Scientific [3] [] []), Token.Comma] rfl
    (Token.Float (FloatRepresentation.Scientific [3] [] [])) (by simp)
    [3] [] [] rfl rfl

/-- Claim C2 as amended: `integer` and `fractional` of a float may each be
empty, but a `Scientific` float finalized at end-of-input must have a
non-empty exponent: reaching end-of-input in the `Exponent` state with an
empty exponent fails with `MissingDigitsAfterExponentMark` at offset =
buffer length, and with a non-empty exponent the `Scientific` token is
emitted.  (A `Scientific` token emitted mid-stream may have an empty
exponent, see the counterexample.) -/
theorem c2_amended_eof_exponent_check :
    ∀ (l : Lexer) (script : List Nat), l.state = State.Exponent →
      (l.exponent = [] →
        feed_eof l script =
          .error (LexError.MissingDigitsAfterExponentMark script.length)) ∧
      (l.exponent ≠ [] →
        feed_eof l script = .ok { l with
          integer := [], fractional := [], exponent := [],
          tokens := l.tokens ++
            [Token.Float
              (FloatRepresentation.Scientific l.integer l.fractional l.exponent)] }) := by
  intro l script hs
  rcases l with ⟨st, ints, fr, ex, idf, tks⟩
  simp only at hs
  subst hs
  constructor
  · intro he
    simp only at he
    subst he
    rfl
  · intro he
    simp only at he
    simp [feed_eof, List.length_eq_zero, he]

/-- Witness for C2's amended theorem: the lexer state after reading `"3e"`,
finalized at end-of-input, fails at offset 2; after `"3e1"` it emits
`Scientific{[3],[],[1]}`. -/
theorem c2_amended_eof_exponent_check_witness :
    feed_eof ⟨State.Exponent, [3], [], [], [], []⟩ [51, 101] =
      .error (LexError.MissingDigitsAfterExponentMark 2) ∧
    feed_eof ⟨State.Exponent, [3], [], [1], [], []⟩ [51, 101, 49] =
      .ok ⟨State.Exponent, [], [], [], [],
        [Token.Float (FloatRepresentation.Scientific [3] [] [1])]⟩ :=
  ⟨(c2_amended_eof_exponent_check ⟨State.Exponent, [3], [], [], [], []⟩
      [51, 101] rfl).1 rfl,
    (c2_amended_eof_exponent_check ⟨State.Exponent, [3], [], [1], [], []⟩
      [51, 101, 49] rfl).2 (by simp)⟩

/-- Helper: `fsm_result_inv` passes through an `if` when each branch
passes under its condition. -/
theorem ite_inv_of {c : Prop} [Decidable c]
    {x y : Except InternalError (Action × Lexer)}
    (hx : c → fsm_result_inv x = true) (hy : ¬ c → fsm_result_inv y = true) :
    fsm_result_inv (if c then x else y) = true := by
  by_cases h : c
  · rw [if_pos h]; exact hx h
  · rw [if_neg h]; exact hy h

/-- Helper: `token_radix_ok` passes through an `if` on tokens. -/
theorem ite_token_ok {c : Prop} [Decidable c] {x y : Token}
    (hx : token_radix_ok x = true) (hy : token_radix_ok y = true) :
    token_radix_ok (if c then x else y) = true := by
  by_cases h : c
  · rwa [if_pos h]
  · rwa [if_neg h]

/-- Helper: keyword classification only appends radix-clean tokens. -/
theorem classify_identifier_tokens_all (l : Lexer)
    (htok : l.tokens.all token_radix_ok = true) :
    (classify_identifier l).tokens.all token_radix_ok = true := by
  unfold classify_identifier
  simp only [List.all_append, htok, Bool.true_and, List.all_cons, List.all_nil,
    Bool.and_true]
  repeat' first | rfl | apply ite_token_ok

/-- Helper: classification leaves the `state` field unchanged. -/
theorem classify_identifier_state (l : Lexer) :
    (classify_identifier l).state = l.state := rfl

/-- Helper: classification leaves the `integer` buffer unchanged. -/
theorem classify_identifier_integer (l : Lexer) :
    (classify_identifier l).integer = l.integer := rfl

/-- Helper: classification leaves the `fractional` buffer unchanged. -/
theorem classify_identifier_fractional (l : Lexer) :
    (classify_identifier l).fractional = l.fractional := rfl

/-- Helper: classification leaves the `exponent` buffer unchanged. -/
theorem classify_identifier_exponent (l : Lexer) :
    (classify_identifier l).exponent = l.exponent := rfl

/-- Helper: the `Start` state preserves the lexer invariant. -/
theorem run_fsm_start_inv (l : Lexer) (byte : Nat) (hst : l.state = State.Start)
    (hinv : lexer_inv l = true) : fsm_result_inv (run_fsm_start l byte) = true := by
  simp only [lexer_inv, hst, digit_bound, Bool.and_eq_true, List.all_eq_true,
    decide_eq_true_eq] at hinv
  obtain ⟨⟨⟨htok, hint⟩, hfr⟩, hex⟩ := hinv
  unfold run_fsm_start
  repeat' first | apply ite_inv_of | intro hc
  all_goals
    simp_all [fsm_result_inv, lexer_inv, digit_bound, push_token, token_radix_ok,
      rep_ok, List.all_append, List.all_eq_true, decide_eq_true_eq]
  all_goals
    first
      | rfl
      | omega
      | (intro d hd
         first
           | exact hint d hd
           | (have hdd := hint d hd; omega)
           | (have hdd := hfr d hd; omega)
           | (have hdd := hex d hd; omega))
      | (refine ⟨?_, ?_⟩
         · intro d hd
           first
             | (have hdd := hint d hd; omega)
             | (have hdd := hfr d hd; omega)
             | (have hdd := hex d hd; omega)
         · omega)

/-- Helper: the `Zero` state preserves the lexer invariant. -/
theorem run_fsm_zero_inv (l : Lexer) (byte : Nat) (hst : l.state = State.Zero)
    (hinv : lexer_inv l = true) : fsm_result_inv (run_fsm_zero l byte) = true := by
  simp only [lexer_inv, hst, digit_bound, Bool.and_eq_true, List.all_eq_true,
    decide_eq_true_eq] at hinv
  obtain ⟨⟨⟨htok, hint⟩, hfr⟩, hex⟩ := hinv
  unfold run_fsm_zero
  repeat' first | apply ite_inv_of | intro hc
  all_goals
    simp_all [fsm_result_inv, lexer_inv, digit_bound, push_token, token_radix_ok,
      rep_ok, List.all_append, List.all_eq_true, decide_eq_true_eq]
  all_goals
    first
      | rfl
      | omega
      | (intro d hd
         first
           | exact hint d hd
           | (have hdd := hint d hd; omega)
           | (have hdd := hfr d hd; omega)
           | (have hdd := hex d hd; omega))
      | (refine ⟨?_, ?_⟩
         · intro d hd
           first
             | (have hdd := hint d hd; omega)
             | (have hdd := hfr d hd; omega)
             | (have hdd := hex d hd; omega)
         · omega)

/-- Helper: the `Dot` state preserves the lexer invariant. -/
theorem run_fsm_dot_inv (l : Lexer) (byte : Nat) (hst : l.state = State.Dot)
    (hinv : lexer_inv l = true) : fsm_result_inv (run_fsm_dot l byte) = true := by
  simp only [lexer_inv, hst, digit_bound, Bool.and_eq_true, List.all_eq_true,
    decide_eq_true_eq] at hinv
  obtain ⟨⟨⟨htok, hint⟩, hfr⟩, hex⟩ := hinv
  unfold run_fsm_dot
  repeat' first | apply ite_inv_of | intro hc
  all_goals
    simp_all [fsm_result_inv, lexer_inv, digit_bound, push_token, token_radix_ok,
      rep_ok, List.all_append, List.all_eq_true, decide_eq_true_eq]
  all_goals
    first
      | rfl
      | omega
      | (intro d hd
         first
           | exact hint d hd
           | (have hdd := hint d hd; omega)
           | (have hdd := hfr d hd; omega)
           | (have hdd := hex d hd; omega))
      | (refine ⟨?_, ?_⟩
         · intro d hd
           first
             | (have hdd := hint d hd; omega)
             | (have hdd := hfr d hd; omega)
             | (have hdd := hex d hd; omega)
         · omega)

/-- Helper: the `Integer` state preserves the lexer invariant. -/
theorem run_fsm_integer_inv (l : Lexer) (byte : Nat) (hst : l.state = State.Integer)
    (hinv : lexer_inv l = true) : fsm_result_inv (run_fsm_integer l byte) = true := by
  simp only [lexer_inv, hst, digit_bound, Bool.and_eq_true, List.all_eq_true,
    decide_eq_true_eq] at hinv
  obtain ⟨⟨⟨htok, hint⟩, hfr⟩, hex⟩ := hinv
  unfold run_fsm_integer
  repeat' first | apply ite_inv_of | intro hc
  all_goals
    simp_all [fsm_result_inv, lexer_inv, digit_bound, push_token, token_radix_ok,
      rep_ok, List.all_append, List.all_eq_true, decide_eq_true_eq]
  all_goals
    first
      | rfl
      | omega
      | (intro d hd
         first
           | exact hint d hd
           | (have hdd := hint d hd; omega)
           | (have hdd := hfr d hd; omega)
           | (have hdd := hex d hd; omega))
      | (refine ⟨?_, ?_⟩
         · intro d hd
           first
             | (have hdd := hint d hd; omega)
             | (have hdd := hfr d hd; omega)
             | (have hdd := hex d hd; omega)
         · omega)

/-- Helper: the `Hexadecimal` state preserves the lexer invariant. -/
theorem run_fsm_hexadecimal_inv (l : Lexer) (byte : Nat) (hst : l.state = State.Hexadecimal)
    (hinv : lexer_inv l = true) : fsm_result_inv (run_fsm_hexadecimal l byte) = true := by
  simp only [lexer_inv, hst, digit_bound, Bool.and_eq_true, List.all_eq_true,
    decide_eq_true_eq] at hinv
  obtain ⟨⟨⟨htok, hint⟩, hfr⟩, hex⟩ := hinv
  unfold run_fsm_hexadecimal
  repeat' first | apply ite_inv_of | intro hc
  all_goals
    simp_all [fsm_result_inv, lexer_inv, digit_bound, push_token, token_radix_ok,
      rep_ok, List.all_append, List.all_eq_true, decide_eq_true_eq]
  all_goals
    first
      | rfl
      | omega
      | (intro d hd
         first
           | exact hint d hd
           | (have hdd := hint d hd; omega)
           | (have hdd := hfr d hd; omega)
           | (have hdd := hex d hd; omega))
      | (refine ⟨?_, ?_⟩
         · intro d hd
           first
             | (have hdd := hint d hd; omega)
             | (have hdd := hfr d hd; omega)
             | (have hdd := hex d hd; omega)
         · omega)

/-- Helper: the `Octal` state preserves the lexer invariant. -/
theorem run_fsm_octal_inv (l : Lexer) (byte : Nat) (hst : l.state = State.Octal)
    (hinv : lexer_inv l = true) : fsm_result_inv (run_fsm_octal l byte) = true := by
  simp only [lexer_inv, hst, digit_bound, Bool.and_eq_true, List.all_eq_true,
    decide_eq_true_eq] at hinv
  obtain ⟨⟨⟨htok, hint⟩, hfr⟩, hex⟩ := hinv
  unfold run_fsm_octal
  repeat' first | apply ite_inv_of | intro hc
  all_goals
    simp_all [fsm_result_inv, lexer_inv, digit_bound, push_token, token_radix_ok,
      rep_ok, List.all_append, List.all_eq_true, decide_eq_true_eq]
  all_goals
    first
      | rfl
      | omega
      | (intro d hd
         first
           | exact hint d hd
           | (have hdd := hint d hd; omega)
           | (have hdd := hfr d hd; omega)
           | (have hdd := hex d hd; omega))
      | (refine ⟨?_, ?_⟩
         · intro d hd
           first
             | (have hdd := hint d hd; omega)
             | (have hdd := hfr d hd; omega)
             | (have hdd := hex d hd; omega)
         · omega)

/-- Helper: the `Binary` state preserves the lexer invariant. -/
theorem run_fsm_binary_inv (l : Lexer) (byte : Nat) (hst : l.state = State.Binary)
    (hinv : lexer_inv l = true) : fsm_result_inv (run_fsm_binary l byte) = true := by
  simp only [lexer_inv, hst, digit_bound, Bool.and_eq_true, List.all_eq_true,
    decide_eq_true_eq] at hinv
  obtain ⟨⟨⟨htok, hint⟩, hfr⟩, hex⟩ := hinv
  unfold run_fsm_binary
  repeat' first | apply ite_inv_of | intro hc
  all_goals
    simp_all [fsm_result_inv, lexer_inv, digit_bound, push_token, token_radix_ok,
      rep_ok, List.all_append, List.all_eq_true, decide_eq_true_eq]
  all_goals
    first
      | rfl
      | omega
      | (intro d hd
         first
           | exact hint d hd
           | (have hdd := hint d hd; omega)
           | (have hdd := hfr d hd; omega)
           | (have hdd := hex d hd; omega))
      | (refine ⟨?_, ?_⟩
         · intro d hd
           first
             | (have hdd := hint d hd; omega)
             | (have hdd := hfr d hd; omega)
             | (have hdd := hex d hd; omega)
         · omega)

/-- Helper: the `Fractional` state preserves the lexer invariant. -/
theorem run_fsm_fractional_inv (l : Lexer) (byte : Nat) (hst : l.state = State.Fractional)
    (hinv : lexer_inv l = true) : fsm_result_inv (run_fsm_fractional l byte) = true := by
  simp only [lexer_inv, hst, digit_bound, Bool.and_eq_true, List.all_eq_true,
    decide_eq_true_eq] at hinv
  obtain ⟨⟨⟨htok, hint⟩, hfr⟩, hex⟩ := hinv
  unfold run_fsm_fractional
  repeat' first | apply ite_inv_of | intro hc
  all_goals
    simp_all [fsm_result_inv, lexer_inv, digit_bound, push_token, token_radix_ok,
      rep_ok, List.all_append, List.all_eq_true, decide_eq_true_eq]
  all_goals
    first
      | rfl
      | omega
      | (intro d hd
         first
           | exact hint d hd
           | (have hdd := hint d hd; omega)
           | (have hdd := hfr d hd; omega)
           | (have hdd := hex d hd; omega))
      | (refine ⟨?_, ?_⟩
         · intro d hd
           first
             | (have hdd := hint d hd; omega)
             | (have hdd := hfr d hd; omega)
             | (have hdd := hex d hd; omega)
         · omega)

/-- Helper: the `Exponent` state preserves the lexer invariant. -/
theorem run_fsm_exponent_inv (l : Lexer) (byte : Nat) (hst : l.state = State.Exponent)
    (hinv : lexer_inv l = true) : fsm_result_inv (run_fsm_exponent l byte) = true := by
  simp only [lexer_inv, hst, digit_bound, Bool.and_eq_true, List.all_eq_true,
    decide_eq_true_eq] at hinv
  obtain ⟨⟨⟨htok, hint⟩, hfr⟩, hex⟩ := hinv
  unfold run_fsm_exponent
  repeat' first | apply ite_inv_of | intro hc
  all_goals
    simp_all [fsm_result_inv, lexer_inv, digit_bound, push_token, token_radix_ok,
      rep_ok, List.all_append, List.all_eq_true, decide_eq_true_eq]
  all_goals
    first
      | rfl
      | omega
      | (intro d hd
         first
           | exact hint d hd
           | (have hdd := hint d hd; omega)
           | (have hdd := hfr d hd; omega)
           | (have hdd := hex d hd; omega))
      | (refine ⟨?_, ?_⟩
         · intro d hd
           first
             | (have hdd := hint d hd; omega)
             | (have hdd := hfr d hd; omega)
             | (have hdd := hex d hd; omega)
         · omega)

/-- Helper: the `Equals` state preserves the lexer invariant. -/
theorem run_fsm_equals_inv (l : Lexer) (byte : Nat) (hst : l.state = State.Equals)
    (hinv : lexer_inv l = true) : fsm_result_inv (run_fsm_equals l byte) = true := by
  simp only [lexer_inv, hst, digit_bound, Bool.and_eq_true, List.all_eq_true,
    decide_eq_true_eq] at hinv
  obtain ⟨⟨⟨htok, hint⟩, hfr⟩, hex⟩ := hinv
  unfold run_fsm_equals
  repeat' first | apply ite_inv_of | intro hc
  all_goals
    simp_all [fsm_result_inv, lexer_inv, digit_bound, push_token, token_radix_ok,
      rep_ok, List.all_append, List.all_eq_true, decide_eq_true_eq]
  all_goals
    first
      | rfl
      | omega
      | (intro d hd
         first
           | exact hint d hd
           | (have hdd := hint d hd; omega)
           | (have hdd := hfr d hd; omega)
           | (have hdd := hex d hd; omega))
      | (refine ⟨?_, ?_⟩
         · intro d hd
           first
             | (have hdd := hint d hd; omega)
             | (have hdd := hfr d hd; omega)
             | (have hdd := hex d hd; omega)
         · omega)

/-- Helper: the `Minus` state preserves the lexer invariant. -/
theorem run_fsm_minus_inv (l : Lexer) (byte : Nat) (hst : l.state = State.Minus)
    (hinv : lexer_inv l = true) : fsm_result_inv (run_fsm_minus l byte) = true := by
  simp only [lexer_inv, hst, digit_bound, Bool.and_eq_true, List.all_eq_true,
    decide_eq_true_eq] at hinv
  obtain ⟨⟨⟨htok, hint⟩, hfr⟩, hex⟩ := hinv
  unfold run_fsm_minus
  repeat' first | apply ite_inv_of | intro hc
  all_goals
    simp_all [fsm_result_inv, lexer_inv, digit_bound, push_token, token_radix_ok,
      rep_ok, List.all_append, List.all_eq_true, decide_eq_true_eq]
  all_goals
    first
      | rfl
      | omega
      | (intro d hd
         first
           | exact hint d hd
           | (have hdd := hint d hd; omega)
           | (have hdd := hfr d hd; omega)
           | (have hdd := hex d hd; omega))
      | (refine ⟨?_, ?_⟩
         · intro d hd
           first
             | (have hdd := hint d hd; omega)
             | (have hdd := hfr d hd; omega)
             | (have hdd := hex d hd; omega)
         · omega)

/-- Helper: the `Identifier` state preserves the lexer invariant. -/
theorem run_fsm_identifier_inv (l : Lexer) (byte : Nat)
    (hst : l.state = State.Identifier) (hinv : lexer_inv l = true) :
    fsm_result_inv (run_fsm_identifier l byte) = true := by
  simp only [lexer_inv, hst, digit_bound, Bool.and_eq_true, List.all_eq_true,
    decide_eq_true_eq] at hinv
  obtain ⟨⟨⟨htok, hint⟩, hfr⟩, hex⟩ := hinv
  unfold run_fsm_identifier
  apply ite_inv_of
  · intro hc
    simp_all [fsm_result_inv, lexer_inv, digit_bound, List.all_eq_true,
      decide_eq_true_eq]
  · intro hc
    simp only [fsm_result_inv, lexer_inv, digit_bound, Bool.and_eq_true]
    refine ⟨⟨⟨?_, ?_⟩, ?_⟩, ?_⟩
    · exact classify_identifier_tokens_all l (List.all_eq_true.mpr htok)
    · rw [classify_identifier_integer]
      simp only [List.all_eq_true, decide_eq_true_eq]
      exact hint
    · rw [classify_identifier_fractional]
      simp only [List.all_eq_true, decide_eq_true_eq]
      exact hfr
    · rw [classify_identifier_exponent]
      simp only [List.all_eq_true, decide_eq_true_eq]
      exact hex

/-- Helper: one FSM step preserves the lexer invariant. -/
theorem run_fsm_inv (l : Lexer) (byte : Nat) (hinv : lexer_inv l = true) :
    fsm_result_inv (run_fsm l byte) = true := by
  rcases hl : l with ⟨st, ints, fr, ex, idf, tks⟩
  cases st
  case Start => exact run_fsm_start_inv _ byte rfl (hl ▸ hinv)
  case Identifier => exact run_fsm_identifier_inv _ byte rfl (hl ▸ hinv)
  case Zero => exact run_fsm_zero_inv _ byte rfl (hl ▸ hinv)
  case Dot => exact run_fsm_dot_inv _ byte rfl (hl ▸ hinv)
  case Integer => exact run_fsm_integer_inv _ byte rfl (hl ▸ hinv)
  case Hexadecimal => exact run_fsm_hexadecimal_inv _ byte rfl (hl ▸ hinv)
  case Octal => exact run_fsm_octal_inv _ byte rfl (hl ▸ hinv)
  case Binary => exact run_fsm_binary_inv _ byte rfl (hl ▸ hinv)
  case Fractional => exact run_fsm_fractional_inv _ byte rfl (hl ▸ hinv)
  case Exponent => exact run_fsm_exponent_inv _ byte rfl (hl ▸ hinv)
  case Equals => exact run_fsm_equals_inv _ byte rfl (hl ▸ hinv)
  case Minus => exact run_fsm_minus_inv _ byte rfl (hl ▸ hinv)

/-- Helper: `eof_result_tokens_ok` passes through an `if` when each branch
passes under its condition. -/
theorem ite_eof_ok {c : Prop} [Decidable c] {x y : Except LexError Lexer}
    (hx : c → eof_result_tokens_ok x = true)
    (hy : ¬ c → eof_result_tokens_ok y = true) :
    eof_result_tokens_ok (if c then x else y) = true := by
  by_cases h : c
  · rw [if_pos h]; exact hx h
  · rw [if_neg h]; exact hy h

/-- Helper: end-of-input finalization only emits radix-clean tokens. -/
theorem feed_eof_tokens_ok (l : Lexer) (script : List Nat)
    (hinv : lexer_inv l = true) :
    eof_result_tokens_ok (feed_eof l script) = true := by
  rcases l with ⟨st, ints, fr, ex, idf, tks⟩
  simp only [lexer_inv, Bool.and_eq_true, List.all_eq_true, decide_eq_true_eq] at hinv
  obtain ⟨⟨⟨htok, hint⟩, hfr⟩, hex⟩ := hinv
  cases st
  case Identifier =>
    exact classify_identifier_tokens_all ⟨State.Identifier, ints, fr, ex, idf, tks⟩
      (List.all_eq_true.mpr htok)
  all_goals
    simp only [feed_eof]
  all_goals
    repeat' first | apply ite_eof_ok | intro hc
  all_goals
    simp_all [eof_result_tokens_ok, push_token, token_radix_ok, rep_ok,
      digit_bound, List.all_append, List.all_eq_true, decide_eq_true_eq]

/-- Helper: the bounded reconsume loop preserves the lexer invariant. -/
theorem feed_byte_fuel_inv : ∀ (fuel : Nat) (l : Lexer) (byte : Nat) (l1 : Lexer),
    feed_byte_fuel fuel l byte = some (Except.ok l1) →
    lexer_inv l = true → lexer_inv l1 = true := by
  intro fuel
  induction fuel with
  | zero =>
    intro l byte l1 h hinv
    simp [feed_byte_fuel] at h
  | succ f ih =>
    intro l byte l1 h hinv
    have hres := run_fsm_inv l byte hinv
    simp only [feed_byte_fuel] at h
    cases hr : run_fsm l byte with
    | error e =>
      rw [hr] at h
      simp at h
    | ok r =>
      rcases r with ⟨a, l2⟩
      have hl2 : lexer_inv l2 = true := by
        rw [hr] at hres
        simpa [fsm_result_inv] using hres
      cases a
      · rw [hr] at h
        simp at h
        rw [← h]
        exact hl2
      · rw [hr] at h
        exact ih l2 byte l1 h hl2

/-- Helper: feeding the whole script preserves the lexer invariant. -/
theorem feed_script_aux_inv : ∀ (script : List Nat) (l : Lexer) (i : Nat) (l' : Lexer),
    feed_script_aux l script i = .ok l' →
    lexer_inv l = true → lexer_inv l' = true := by
  intro script
  induction script with
  | nil =>
    intro l i l' h hinv
    simp only [feed_script_aux] at h
    simp at h
    rw [← h]
    exact hinv
  | cons b rest ih =>
    intro l i l' h hinv
    simp only [feed_script_aux] at h
    cases hb : feed_byte l b with
    | none =>
      rw [hb] at h
      simp at h
    | some r =>
      cases r with
      | error e =>
        rw [hb] at h
        simp at h
      | ok l1 =>
        rw [hb] at h
        exact ih l1 (i + 1) l' h (feed_byte_fuel_inv 2 l b l1 hb hinv)

/-- Helper: every successful tokenization yields only radix-clean tokens. -/
theorem tokenize_tokens_ok (script : List Nat) (ts : List Token)
    (h : tokenize script = .ok ts) : ts.all token_radix_ok = true := by
  unfold tokenize at h
  cases hfs : feed_script Lexer.new script with
  | error e =>
    rw [hfs] at h
    simp at h
  | ok l =>
    rw [hfs] at h
    simp at h
    cases hfe : feed_eof l script with
    | error e =>
      rw [hfe] at h
      simp at h
    | ok l1 =>
      rw [hfe] at h
      simp at h
      have hinv : lexer_inv l = true :=
        feed_script_aux_inv script Lexer.new 0 l hfs rfl
      have heof := feed_eof_tokens_ok l script hinv
      rw [hfe] at heof
      simp only [eof_result_tokens_ok] at heof
      rw [← h]
      exact heof

/-- Claim C6: in every successful tokenization, every digit value stored in
an emitted `IntegerRepresentation` is strictly below that representation's
radix: below 10 for `Decimal`, 16 for `Hexadecimal`, 8 for `Octal`, and 2
for `Binary`. -/
theorem c6_digit_values_below_radix :
    ∀ (script : List Nat) (ts : List Token), tokenize script = .ok ts →
      ∀ t ∈ ts, ∀ ds,
        (t = Token.Integer (IntegerRepresentation.Decimal ds) → ∀ d ∈ ds, d < 10) ∧
        (t = Token.Integer (IntegerRepresentation.Hexadecimal ds) → ∀ d ∈ ds, d < 16) ∧
        (t = Token.Integer (IntegerRepresentation.Octal ds) → ∀ d ∈ ds, d < 8) ∧
        (t = Token.Integer (IntegerRepresentation.Binary ds) → ∀ d ∈ ds, d < 2) := by
  intro script ts h t ht ds
  have hall := tokenize_tokens_ok script ts h
  rw [List.all_eq_true] at hall
  have htt := hall t ht
  refine ⟨?_, ?_, ?_, ?_⟩ <;> intro heq <;> subst heq <;>
    simpa [token_radix_ok, rep_ok, List.all_eq_true, decide_eq_true_eq] using htt

/-- Witness for C6: the hexadecimal literal `"0x64"` yields digit values
`[6, 4]`, and its first digit value 6 is below 16. -/
theorem c6_digit_values_below_radix_witness : (6 : Nat) < 16 :=
  (c6_digit_values_below_radix [48, 120, 54, 52]
      [Token.Integer (IntegerRepresentation.Hexadecimal [6, 4])] rfl
      (Token.Integer (IntegerRepresentation.Hexadecimal [6, 4])) (by simp)
      [6, 4]).2.1 rfl 6 (by simp)

end BarkLang
